import Mathlib

/-!
Verification of the SNI-routing core of the tcpproxy repository.

The development is a shallow embedding of the Go sources:

* `sni.go` — ClientHello sniffing (`ReadClientHelloInfo`,
  `clientHelloServerName`), the route matchers (`sniMatch`, `acmeMatch`),
  the ACME probe (`tryACME`) and route registration (`AddSNIMatchRoute`).
* `starttls_imap.go` — the IMAP STARTTLS negotiator (`negotiateIMAPTLS`).
* `starttls_smtp.go` — the SMTP STARTTLS greeting (`greetSMTP`).
* the static routing config loader (`Config.Read`, `Config.Match`).

External collaborators (the Go crypto/tls handshake, the regexp engine,
the uuid generator, the buffered reader) are modelled by explicit
parameters or by their documented semantics; everything written by this
repository is translated line by line.
-/

namespace Tcpproxy

/-! ## Buffered byte source: bufio.Reader.Peek

A buffered reader over a byte stream.  `peekBytes bs n` models
`br.Peek(n)` on the unread portion `bs`: it returns the first `n` bytes
without consuming them when at least `n` are available, and an error
(`none`) on a short read. -/

def peekBytes (bs : List Nat) (n : Nat) : Option (List Nat) :=
  if n ≤ bs.length then some (bs.take n) else none

/-- `recordHeaderLen` from sni.go: the TLS record header is 5 bytes. -/
def recordHeaderLen : Nat := 5

/-- `recordTypeHandshake` from sni.go: the TLS handshake record type byte. -/
def recordTypeHandshake : Nat := 0x16

/-- The declared record length, decoded from bytes 3 and 4 of the record
header big-endian, as in sni.go: `int(hdr[3])<<8 | int(hdr[4])`. -/
def recLen (hdr : List Nat) : Nat := hdr.getD 3 0 * 256 + hdr.getD 4 0

/-- Embedding of `ReadClientHelloInfo` (sni.go).  `parseHello` abstracts
the crypto/tls capture step: the Go code feeds the peeked window to
`tls.Server` with a `GetConfigForClient` callback and returns whatever
`ClientHelloInfo` was captured, ignoring the handshake error, so it is a
total function from the byte window to a server-name string (the empty
string when the callback never fires). -/
def ReadClientHelloInfo (parseHello : List Nat → String) (bs : List Nat) :
    Except String String :=
  match peekBytes bs recordHeaderLen with
  | none => .error "peek header"
  | some hdr =>
    if hdr.headD 0 ≠ recordTypeHandshake then .error "not tls"
    else
      match peekBytes bs (recordHeaderLen + recLen hdr) with
      | none => .error "peek record"
      | some helloBytes => .ok (parseHello helloBytes)

/-- Embedding of `clientHelloServerName` (sni.go): the SNI server name in
the ClientHello, the empty string on any error. -/
def clientHelloServerName (parseHello : List Nat → String) (bs : List Nat) :
    String :=
  match ReadClientHelloInfo parseHello bs with
  | .error _ => ""
  | .ok sni => sni

/-! ## Stateful reader: peeking never moves the cursor

`Reader` models the buffered reader with an explicit read position, so
that consuming and non-consuming operations can be told apart.
`readerPeek` is `Peek` (position unchanged, per the bufio contract);
`readerRead` is the consuming read the sniffer never performs. -/

structure Reader where
  data : List Nat
  pos : Nat
  deriving DecidableEq

/-- `Peek(n)`: look at the next `n` unread bytes; the reader state is
returned unchanged. -/
def readerPeek (r : Reader) (n : Nat) : Option (List Nat) × Reader :=
  (peekBytes (r.data.drop r.pos) n, r)

/-- A consuming read of `n` bytes, advancing the position.  Present in
the model to show the state space distinguishes consumption; the sniffer
never calls it. -/
def readerRead (r : Reader) (n : Nat) : List Nat × Reader :=
  ((r.data.drop r.pos).take n, ⟨r.data, r.pos + n⟩)

/-- `ReadClientHelloInfo` threaded through the stateful reader, peeking
exactly as sni.go does. -/
def ReadClientHelloInfoR (parseHello : List Nat → String) (r : Reader) :
    Except String String × Reader :=
  match readerPeek r recordHeaderLen with
  | (none, r1) => (.error "peek header", r1)
  | (some hdr, r1) =>
    if hdr.headD 0 ≠ recordTypeHandshake then (.error "not tls", r1)
    else
      match readerPeek r1 (recordHeaderLen + recLen hdr) with
      | (none, r2) => (.error "peek record", r2)
      | (some helloBytes, r2) => (.ok (parseHello helloBytes), r2)

/-- `clientHelloServerName` threaded through the stateful reader. -/
def clientHelloServerNameR (parseHello : List Nat → String) (r : Reader) :
    String × Reader :=
  match ReadClientHelloInfoR parseHello r with
  | (.error _, rr) => ("", rr)
  | (.ok sni, rr) => (sni, rr)

/-! ## IMAP STARTTLS negotiator (starttls_imap.go)

Line I/O is modelled explicitly: the negotiator consumes a list of input
lines (`textproto.ReadLine` results; the empty list is a read error) and
produces the list of lines it wrote plus an optional error (`none` means
the Go function returned a nil error, i.e. success). -/

/-- `strings.Cut(s, " ")` on the character list: split around the first
space, returning (before, after, found). -/
def cutSpaceAux : List Char → List Char × List Char × Bool
  | [] => ([], [], false)
  | c :: cs =>
    if c = ' ' then ([], cs, true)
    else
      let r := cutSpaceAux cs
      (c :: r.1, r.2.1, r.2.2)

/-- `strings.Cut(s, " ")`. -/
def cutSpace (s : String) : String × String × Bool :=
  let r := cutSpaceAux s.data
  (String.mk r.1, String.mk r.2.1, r.2.2)

/-- The capability banner emitted by `negotiateIMAPTLS`. -/
def imapBanner : String :=
  "* OK [CAPABILITY IMAP4rev1 STARTTLS LOGINDISABLED] IMAP4rev1 Service Ready"

/-- Embedding of `negotiateIMAPTLS` (starttls_imap.go): emit the banner,
read one line, cut it at the first space into tag and command; no space
is an error, `STARTTLS` answers `<tag> OK Begin TLS negotiation now` and
succeeds, anything else answers `<tag> <cmd> Unsupported command` and
fails. -/
def negotiateIMAPTLS (input : List String) : List String × Option String :=
  match input with
  | [] => ([imapBanner], some "read error")
  | l :: _ =>
    let r := cutSpace l
    let tag := r.1
    let cmd := r.2.1
    if r.2.2 = false then ([imapBanner], some "")
    else if cmd = "STARTTLS" then
      ([imapBanner, tag ++ " OK Begin TLS negotiation now"], none)
    else
      ([imapBanner, tag ++ " " ++ cmd ++ " Unsupported command"],
        some ("unsupported command " ++ cmd ++ " received"))

/-! ## SMTP STARTTLS greeting (starttls_smtp.go) -/

/-- `fmt.Sscanf(l, "EHLO %s", &clientName)`: the literal `EHLO` must
match the first four characters.  The space in the format must then
consume at least one whitespace character from the input or find the
end of the input — a non-space character directly after `EHLO` is the
`expected space in input to match format` error.  The `%s` verb then
scans one maximal non-whitespace token after the skipped run of
whitespace, failing at end of input.  Extra input after the token is
ignored by `Sscanf`. -/
def sscanfEHLO (l : String) : Except String String :=
  let cs := l.data
  if cs.take 4 = ['E', 'H', 'L', 'O'] then
    match cs.drop 4 with
    | [] => .error "unexpected EOF"
    | c :: rest =>
      if c.isWhitespace then
        let afterSpaces := rest.dropWhile Char.isWhitespace
        if afterSpaces = [] then .error "unexpected EOF"
        else .ok (String.mk (afterSpaces.takeWhile (fun c2 => ! c2.isWhitespace)))
      else .error "expected space in input to match format"
  else .error "input does not match format"

/-- Embedding of `greetSMTP` (starttls_smtp.go): emit
`220 <serverName> Service ready`, read one line, scan it as
`EHLO <clientName>`; any read or scan error is returned, otherwise the
scanned client name. -/
def greetSMTP (serverName : String) (input : List String) :
    List String × Except String String :=
  let greeting := "220 " ++ serverName ++ " Service ready"
  match input with
  | [] => ([greeting], .error "read error")
  | l :: _ =>
    match sscanfEHLO l with
    | .error e => ([greeting], .error e)
    | .ok clientName => ([greeting], .ok clientName)

/-! ## ACME probe (tryACME, sni.go)

One probe hands a pipe end to the backend, runs a TLS client handshake
against it and inspects the presented chain.  The handshake itself is
the crypto/tls library run against the backend, so it is abstracted as
its outcome: an error, or the peer certificate list.  Certificate
hostname verification (`x509.Certificate.VerifyHostname`) is likewise an
abstract parameter returning `none` for a valid name. -/

/-- Embedding of `tryACME` (sni.go): the value sent on the result
channel.  `handshake` is the outcome of `tls.Client(...).Handshake()`
together with `ConnectionState().PeerCertificates`; `verifyHostname c s`
is `c.VerifyHostname(s)`. -/
def tryACME {α κ : Type} (handshake : Except String (List κ))
    (verifyHostname : κ → String → Option String) (dest : α) (sni : String) :
    Option α :=
  match handshake with
  | .error _ => none
  | .ok certs =>
    match certs with
    | [] => none
    | c :: _ =>
      match verifyHostname c sni with
      | some _ => none
      | none => some dest

/-! ## ACME matcher (acmeMatch.match, sni.go) -/

/-- The challenge-hostname suffix checked by `acmeMatch.match`. -/
def acmeChallengeSuffix : String := ".acme.invalid"

/-- `strings.HasSuffix(sni, ".acme.invalid")`. -/
def hasAcmeSuffix (sni : String) : Bool :=
  acmeChallengeSuffix.data.isSuffixOf sni.data

/-- The receive loop of `acmeMatch.match`: read probe results in arrival
order, return the first non-nil target, `none` when the channel delivers
only nils. -/
def firstSome {α : Type} : List (Option α) → Option α
  | [] => none
  | some t :: _ => some t
  | none :: rest => firstSome rest

/-- Embedding of `acmeMatch.match` (sni.go): sniff the SNI, require the
`.acme.invalid` suffix, then race one `tryACME` probe per registered
target and take the first affirmative arrival.  `arrivals` is the
channel contents in arrival order — one `tryACME` result per registered
target, in a scheduler-chosen order. -/
def acmeMatchMatch {α : Type} (parseHello : List Nat → String) (bs : List Nat)
    (arrivals : List (Option α)) : Option α × String :=
  let sni := clientHelloServerName parseHello bs
  if hasAcmeSuffix sni = false then (none, "")
  else
    match firstSome arrivals with
    | some t => (some t, sni)
    | none => (none, "")

/-! ## Route registration (AddSNIMatchRoute, sni.go)

The per-listener route table.  `config`, `configFor` and
`addRouteWithId` live in tcpproxy.go, which is not among the sources;
their effect is modelled from the spec (section 3, ListenerRouteTable):
an ordered route list appended in registration order, an append-only
ACME target list, and the stop-ACME flag. -/

/-- A route matcher as stored in the table: the ACME pseudo-route or an
SNI route with its destination. -/
inductive RouteKind (α : Type) where
  | acme : RouteKind α
  | sniRoute : α → RouteKind α
  deriving DecidableEq

/-- One entry of the listener route table: the route id (uuid, modelled
as a number supplied by the caller) and the matcher. -/
structure RouteEntry (α : Type) where
  rid : Nat
  kind : RouteKind α
  deriving DecidableEq

/-- Modelled from the spec: the per-listener route table held in
`config` (tcpproxy.go, absent from the sources) — ordered rule list,
ACME-eligible target list, ACME-opt-out flag. -/
structure ListenerConfig (α : Type) where
  routes : List (RouteEntry α)
  acmeTargets : List α
  stopACME : Bool
  deriving DecidableEq

/-- Modelled from the spec: `addRouteWithId` (tcpproxy.go, absent from
the sources) appends one route to the listener's ordered rule list. -/
def addRouteWithId {α : Type} (cfg : ListenerConfig α) (kind : RouteKind α)
    (routeId : Nat) : ListenerConfig α :=
  { cfg with routes := cfg.routes ++ [⟨routeId, kind⟩] }

/-- Embedding of `AddSNIMatchRoute` (sni.go) on one listener's table.
`routeId` stands for the `uuid.New()` result.  When ACME search is not
stopped, a first SNI route also registers the ACME pseudo-route under
the same id, and every SNI route appends its dest to `acmeTargets`. -/
def AddSNIMatchRoute {α : Type} (cfg : ListenerConfig α) (routeId : Nat)
    (dest : α) : ListenerConfig α :=
  let cfg1 :=
    if cfg.stopACME = false then
      let cfg2 :=
        if cfg.acmeTargets.length = 0 then
          addRouteWithId cfg (RouteKind.acme) routeId
        else cfg
      { cfg2 with acmeTargets := cfg2.acmeTargets ++ [dest] }
    else cfg
  addRouteWithId cfg1 (RouteKind.sniRoute dest) routeId

/-- Embedding of `AddStopACMESearch` (sni.go, older revision among the
sources): set the stop flag on the listener's config. -/
def AddStopACMESearch {α : Type} (cfg : ListenerConfig α) : ListenerConfig α :=
  { cfg with stopACME := true }

/-- A freshly created listener config: `configFor` zero value —
no routes, no ACME targets, ACME search enabled. -/
def freshConfig (α : Type) : ListenerConfig α := ⟨[], [], false⟩

/-- A sequence of `AddSNIMatchRoute` calls, each with its generated id
and destination, applied in order. -/
def addAll {α : Type} (cfg : ListenerConfig α) (calls : List (Nat × α)) :
    ListenerConfig α :=
  calls.foldl (fun c p => AddSNIMatchRoute c p.1 p.2) cfg

/-- Whether a table entry is the ACME pseudo-route. -/
def isAcmeRoute {α : Type} (r : RouteEntry α) : Bool :=
  match r.kind with
  | RouteKind.acme => true
  | RouteKind.sniRoute _ => false

/-- Number of ACME pseudo-routes in a route list. -/
def countAcme {α : Type} (rs : List (RouteEntry α)) : Nat :=
  (rs.filter isAcmeRoute).length

/-! ## Static routing config loader (Config.Read / Config.Match)

The loader is parametric in the regexp engine: `compile` models
`regexp.Compile` (`none` on error) and `rmatch` models
`Regexp.MatchString`. -/

/-- `strings.Fields` on the character list: split around runs of
whitespace, accumulating the current token reversed. -/
def fieldsAux : List Char → List Char → List (List Char)
  | acc, [] => if acc = [] then [] else [acc.reverse]
  | acc, c :: cs =>
    if c.isWhitespace then
      if acc = [] then fieldsAux [] cs else acc.reverse :: fieldsAux [] cs
    else fieldsAux (c :: acc) cs

/-- `strings.Fields(s)`. -/
def fields (s : String) : List String := (fieldsAux [] s.data).map String.mk

/-- One static route: compiled hostname pattern and backend address. -/
structure CRoute (ρ : Type) where
  pat : ρ
  backend : String

/-- The static routing configuration: the routes slice. -/
structure TLSConfig (ρ : Type) where
  routes : List (CRoute ρ)

/-- The lookup loop of `Config.Match`: first route whose pattern matches
the hostname wins; empty string when none matches. -/
def configMatchList {ρ : Type} (rmatch : ρ → String → Bool) :
    List (CRoute ρ) → String → String
  | [], _ => ""
  | r :: rs, hostname =>
    if rmatch r.pat hostname then r.backend
    else configMatchList rmatch rs hostname

/-- Embedding of `Config.Match`. -/
def configMatch {ρ : Type} (rmatch : ρ → String → Bool) (c : TLSConfig ρ)
    (hostname : String) : String :=
  configMatchList rmatch c.routes hostname

/-- The scan loop of `Config.Read`: build the new routes list from the
input lines.  Zero fields skips the line, one field or three and more
fields is an error, two fields compile the pattern and append the
route. -/
def readRoutes {ρ : Type} (compile : String → Option ρ) :
    List String → Except String (List (CRoute ρ))
  | [] => .ok []
  | l :: ls =>
    match fields l with
    | [] => readRoutes compile ls
    | [_] => .error "invalid field on a line by itself"
    | [p, b] =>
      match compile p with
      | none => .error "invalid pattern"
      | some re =>
        match readRoutes compile ls with
        | .error e => .error e
        | .ok rs => .ok (⟨re, b⟩ :: rs)
    | _ => .error "too many fields on line"

/-- Embedding of `Config.Read`: parse all lines (with `scanErr` the
scanner's terminal error, checked after the loop), and only on full
success replace the routes slice.  The returned pair is (error, the
config after the call). -/
def configRead {ρ : Type} (compile : String → Option ρ) (lines : List String)
    (scanErr : Bool) (c : TLSConfig ρ) : Option String × TLSConfig ρ :=
  match readRoutes compile lines with
  | .error e => (some e, c)
  | .ok rs => if scanErr then (some "scanner error", c) else (none, ⟨rs⟩)

/-! ## Helper lemmas -/

theorem headD_take_recordHeaderLen (bs : List Nat) :
    (bs.take recordHeaderLen).headD 0 = bs.headD 0 := by
  cases bs <;> simp [recordHeaderLen]

theorem ReadClientHelloInfoR_eq (parseHello : List Nat → String) (r : Reader) :
    ReadClientHelloInfoR parseHello r =
      (ReadClientHelloInfo parseHello (r.data.drop r.pos), r) := by
  unfold ReadClientHelloInfoR ReadClientHelloInfo readerPeek
  cases h : peekBytes (r.data.drop r.pos) recordHeaderLen with
  | none => simp [h]
  | some hdr =>
    simp only [h]
    split
    · rfl
    · cases h2 : peekBytes (r.data.drop r.pos) (recordHeaderLen + recLen hdr) with
      | none => simp [h2]
      | some helloBytes => simp [h2]

theorem clientHelloServerNameR_eq (parseHello : List Nat → String) (r : Reader) :
    clientHelloServerNameR parseHello r =
      (clientHelloServerName parseHello (r.data.drop r.pos), r) := by
  unfold clientHelloServerNameR clientHelloServerName
  rw [ReadClientHelloInfoR_eq]
  cases ReadClientHelloInfo parseHello (r.data.drop r.pos) <;> rfl

/-! ## Claim theorems -/

/-- Claim C1: a `tryACME` probe yields its target exactly when the
handshake succeeds, the presented chain is non-empty and the first
certificate verifies for the challenge hostname; a handshake error, an
empty chain or a failed first-certificate verification each yield
`none`. -/
theorem tryACME_yields_iff {α κ : Type} (handshake : Except String (List κ))
    (verifyHostname : κ → String → Option String) (dest : α) (sni : String) :
    (tryACME handshake verifyHostname dest sni = some dest ↔
      ∃ c cs, handshake = .ok (c :: cs) ∧ verifyHostname c sni = none) ∧
    (∀ e, handshake = .error e →
      tryACME handshake verifyHostname dest sni = none) ∧
    (handshake = .ok [] → tryACME handshake verifyHostname dest sni = none) ∧
    (∀ c cs e, handshake = .ok (c :: cs) → verifyHostname c sni = some e →
      tryACME handshake verifyHostname dest sni = none) ∧
    (∀ t, tryACME handshake verifyHostname dest sni = some t → t = dest) := by
  rcases handshake with e | ⟨_ | ⟨c, cs⟩⟩
  · simp [tryACME]
  · simp [tryACME]
  · cases hv : verifyHostname c sni with
    | none =>
      refine ⟨⟨fun _ => ⟨c, cs, rfl, hv⟩, fun _ => by simp [tryACME, hv]⟩,
        by simp, by simp, ?_, ?_⟩
      · intro c1 cs1 e h h2
        obtain ⟨rfl, rfl⟩ : c = c1 ∧ cs = cs1 := by simpa using h
        rw [hv] at h2
        exact Option.noConfusion h2
      · intro t ht
        have : some dest = some t := by
          rw [← ht]; simp [tryACME, hv]
        exact (Option.some.inj this).symm
    | some e0 =>
      refine ⟨⟨?_, ?_⟩, by simp, by simp, fun _ _ _ _ _ => by simp [tryACME, hv],
        ?_⟩
      · intro h
        rw [show tryACME (Except.ok (c :: cs)) verifyHostname dest sni = none
          from by simp [tryACME, hv]] at h
        exact Option.noConfusion h
      · rintro ⟨c1, cs1, h, h2⟩
        obtain ⟨rfl, rfl⟩ : c = c1 ∧ cs = cs1 := by simpa using h
        rw [hv] at h2
        exact Option.noConfusion h2
      · intro t ht
        rw [show tryACME (Except.ok (c :: cs)) verifyHostname dest sni = none
          from by simp [tryACME, hv]] at ht
        exact Option.noConfusion ht

/-- Witness for C1: a successful handshake presenting one certificate
that verifies for the challenge hostname yields the probed target. -/
theorem tryACME_yields_iff_witness :
    tryACME (Except.ok [5]) (fun _ _ => none) 7 "x.acme.invalid" = some 7 :=
  (tryACME_yields_iff (Except.ok [(5 : Nat)]) (fun _ _ => none) (7 : Nat)
    "x.acme.invalid").1.mpr ⟨5, [], rfl, rfl⟩

/-- Claim C2: `clientHelloServerName` is total — a failed 5-byte header
peek, a non-handshake first byte, or a failed peek of the declared
`5 + length` window each give the empty string, and on success the
parsed SNI of the peeked window is returned. -/
theorem clientHelloServerName_total_spec (parseHello : List Nat → String)
    (bs : List Nat) :
    (bs.length < recordHeaderLen → clientHelloServerName parseHello bs = "") ∧
    (recordHeaderLen ≤ bs.length → bs.headD 0 ≠ recordTypeHandshake →
      clientHelloServerName parseHello bs = "") ∧
    (recordHeaderLen ≤ bs.length → bs.headD 0 = recordTypeHandshake →
      bs.length < recordHeaderLen + recLen (bs.take recordHeaderLen) →
      clientHelloServerName parseHello bs = "") ∧
    (recordHeaderLen ≤ bs.length → bs.headD 0 = recordTypeHandshake →
      recordHeaderLen + recLen (bs.take recordHeaderLen) ≤ bs.length →
      clientHelloServerName parseHello bs =
        parseHello
          (bs.take (recordHeaderLen + recLen (bs.take recordHeaderLen)))) := by
  refine ⟨?_, ?_, ?_, ?_⟩
  · intro h
    unfold clientHelloServerName ReadClientHelloInfo peekBytes
    rw [if_neg (by omega)]
  · intro h5 hb
    unfold clientHelloServerName ReadClientHelloInfo peekBytes
    rw [if_pos h5]
    have hh := headD_take_recordHeaderLen bs
    simp only [hh]
    rw [if_pos hb]
  · intro h5 hb hlen
    unfold clientHelloServerName ReadClientHelloInfo peekBytes
    rw [if_pos h5]
    have hh := headD_take_recordHeaderLen bs
    simp only [hh]
    rw [if_neg (not_not_intro hb), if_neg (by omega)]
  · intro h5 hb hlen
    unfold clientHelloServerName ReadClientHelloInfo peekBytes
    rw [if_pos h5]
    have hh := headD_take_recordHeaderLen bs
    simp only [hh]
    rw [if_neg (not_not_intro hb), if_pos hlen]

/-- Witness for C2: a 7-byte handshake record with declared length 2 is
fully peeked and its parsed server name returned. -/
theorem clientHelloServerName_total_spec_witness :
    clientHelloServerName (fun l => if l.length = 7 then "example.com" else "")
      [22, 3, 1, 0, 2, 99, 88] = "example.com" :=
  ((clientHelloServerName_total_spec
      (fun l => if l.length = 7 then "example.com" else "")
      [22, 3, 1, 0, 2, 99, 88]).2.2.2 (by decide) (by decide)
      (by decide)).trans (by decide)

/-- Claim C3: sniffing only peeks — the reader state is unchanged after
a sniff, sniffing twice in succession yields identical SNI results, and
the stateful sniff agrees with the pure one on the unread bytes. -/
theorem sniff_nonconsuming_idempotent (parseHello : List Nat → String)
    (r : Reader) :
    (clientHelloServerNameR parseHello r).2 = r ∧
    (clientHelloServerNameR parseHello
        ((clientHelloServerNameR parseHello r).2)).1 =
      (clientHelloServerNameR parseHello r).1 ∧
    (clientHelloServerNameR parseHello r).1 =
      clientHelloServerName parseHello (r.data.drop r.pos) := by
  simp [clientHelloServerNameR_eq]

/-- Counterexample for C4: on input line `a1 LOGIN user pass` the IMAP
negotiator emits `a1 LOGIN user pass Unsupported command` — `strings.Cut`
splits only at the first space, so the whole remainder of the line, not
just the word `LOGIN`, is echoed — refuting the claimed output
`a1 LOGIN Unsupported command`. -/
theorem negotiateIMAPTLS_counterexample :
    (negotiateIMAPTLS ["a1 LOGIN user pass"]).1 ≠
      [imapBanner, "a1 LOGIN Unsupported command"] ∧
    negotiateIMAPTLS ["a1 LOGIN user pass"] =
      ([imapBanner, "a1 LOGIN user pass Unsupported command"],
        some "unsupported command LOGIN user pass received") :=
  ⟨by decide, rfl⟩

/-- Claim C4 (amended): `a1 STARTTLS` produces the capability banner
followed by exactly `a1 OK Begin TLS negotiation now` and succeeds;
`a1 LOGIN user pass` produces the banner followed by
`a1 LOGIN user pass Unsupported command` (the echoed command is the full
remainder of the line after the first space) and fails; a line with no
space fails. -/
theorem negotiateIMAPTLS_spec :
    negotiateIMAPTLS ["a1 STARTTLS"] =
      ([imapBanner, "a1 OK Begin TLS negotiation now"], none) ∧
    negotiateIMAPTLS ["a1 LOGIN user pass"] =
      ([imapBanner, "a1 LOGIN user pass Unsupported command"],
        some "unsupported command LOGIN user pass received") ∧
    ∀ l : String, (cutSpaceAux l.data).2.2 = false →
      (negotiateIMAPTLS [l]).2 = some "" := by
  refine ⟨rfl, rfl, ?_⟩
  intro l h
  have hc : (cutSpace l).2.2 = false := h
  simp [negotiateIMAPTLS, hc]

/-- Witness for C4: `a1STARTTLS` contains no space, so the negotiator
fails on it. -/
theorem negotiateIMAPTLS_spec_witness :
    (cutSpaceAux ("a1STARTTLS").data).2.2 = false ∧
    (negotiateIMAPTLS ["a1STARTTLS"]).2 = some "" :=
  ⟨by decide, negotiateIMAPTLS_spec.2.2 "a1STARTTLS" (by decide)⟩

/-- Counterexample for C5: the line `EHLO a b` carries two tokens after
`EHLO`, yet `greetSMTP` succeeds and guesses the client name `a`:
`fmt.Sscanf` with format `EHLO %s` scans one token and ignores the rest
of the line, so more than one token is not rejected. -/
theorem greetSMTP_counterexample :
    fields "EHLO a b" = ["EHLO", "a", "b"] ∧
    greetSMTP "mail.example" ["EHLO a b"] =
      (["220 mail.example Service ready"], Except.ok "a") :=
  ⟨by decide, rfl⟩

/-- Claim C5 (amended): after emitting the greeting, `greetSMTP` fails
with a protocol error when there is no line to read, when the line does
not start with the literal `EHLO`, when the character directly after
`EHLO` is not whitespace, or when no token follows the whitespace run
after `EHLO`; when `EHLO` is followed by whitespace and one or more
tokens it succeeds and returns the first token as the client name
(extra tokens are ignored, not rejected). -/
theorem greetSMTP_spec (serverName l : String) (ls : List String) :
    (∃ e, (greetSMTP serverName []).2 = Except.error e) ∧
    (l.data.take 4 ≠ ['E', 'H', 'L', 'O'] →
      ∃ e, (greetSMTP serverName (l :: ls)).2 = Except.error e) ∧
    ((l.data.drop 4).dropWhile Char.isWhitespace = [] →
      ∃ e, (greetSMTP serverName (l :: ls)).2 = Except.error e) ∧
    (∀ c rest, l.data.take 4 = ['E', 'H', 'L', 'O'] →
      l.data.drop 4 = c :: rest → c.isWhitespace = false →
      ∃ e, (greetSMTP serverName (l :: ls)).2 = Except.error e) ∧
    (∀ c rest, l.data.take 4 = ['E', 'H', 'L', 'O'] →
      l.data.drop 4 = c :: rest → c.isWhitespace = true →
      rest.dropWhile Char.isWhitespace ≠ [] →
      (greetSMTP serverName (l :: ls)).2 =
        Except.ok (String.mk
          ((rest.dropWhile Char.isWhitespace).takeWhile
            (fun c2 => ! c2.isWhitespace)))) := by
  refine ⟨⟨"read error", rfl⟩, ?_, ?_, ?_, ?_⟩
  · intro h
    refine ⟨"input does not match format", ?_⟩
    have hs : sscanfEHLO l = .error "input does not match format" := by
      unfold sscanfEHLO
      rw [if_neg h]
    simp [greetSMTP, hs]
  · intro h
    by_cases h4 : l.data.take 4 = ['E', 'H', 'L', 'O']
    · refine ⟨"unexpected EOF", ?_⟩
      have hs : sscanfEHLO l = .error "unexpected EOF" := by
        simp only [sscanfEHLO]
        rw [if_pos h4]
        cases hd : l.data.drop 4 with
        | nil => rfl
        | cons c rest =>
          rw [hd] at h
          have hc : c.isWhitespace = true := by
            by_contra hcw
            simp only [List.dropWhile_cons, Bool.not_eq_true] at h hcw
            rw [hcw] at h
            simp at h
          have h2 : rest.dropWhile Char.isWhitespace = [] := by
            simpa [List.dropWhile_cons, hc] using h
          simp [hc, h2]
      simp [greetSMTP, hs]
    · refine ⟨"input does not match format", ?_⟩
      have hs : sscanfEHLO l = .error "input does not match format" := by
        unfold sscanfEHLO
        rw [if_neg h4]
      simp [greetSMTP, hs]
  · intro c rest h4 hd hcw
    refine ⟨"expected space in input to match format", ?_⟩
    have hs : sscanfEHLO l = .error "expected space in input to match format" := by
      simp only [sscanfEHLO]
      rw [if_pos h4, hd]
      simp [hcw]
    simp [greetSMTP, hs]
  · intro c rest h4 hd hc hne
    have hs : sscanfEHLO l =
        Except.ok (String.mk
          ((rest.dropWhile Char.isWhitespace).takeWhile
            (fun c2 => ! c2.isWhitespace))) := by
      simp only [sscanfEHLO]
      rw [if_pos h4, hd]
      simp [hc, hne]
    simp [greetSMTP, hs]

/-- Witness for C5: `EHLO client1` — the literal, one space, one token —
is accepted with client name `client1`. -/
theorem greetSMTP_spec_witness :
    ("EHLO client1".data.take 4 = ['E', 'H', 'L', 'O']) ∧
    (greetSMTP "mail.example" ["EHLO client1"]).2 = Except.ok "client1" :=
  ⟨by decide,
    ((greetSMTP_spec "mail.example" "EHLO client1" []).2.2.2.2 ' '
      "client1".data (by decide) (by decide) (by decide)
      (by decide)).trans rfl⟩

/-- `firstSome` on a list of nils is nil. -/
theorem firstSome_eq_none_of_all_none {α : Type} (l : List (Option α))
    (h : ∀ x ∈ l, x = none) : firstSome l = none := by
  induction l with
  | nil => rfl
  | cons x xs ih =>
    have hx : x = none := h x (by simp)
    subst hx
    simpa [firstSome] using ih (fun y hy => h y (by simp [hy]))

/-- Claim C6: the ACME matcher reports a non-match — nil target, empty
hostname — whenever the sniffed hostname lacks the `.acme.invalid`
suffix, whenever the set of eligible backends is empty, and whenever
every probe yields nil; `arrivals` is one `tryACME` outcome per
registered target, in a scheduler-chosen arrival order. -/
theorem acmeMatch_no_match {α : Type} (parseHello : List Nat → String)
    (bs : List Nat) (targets : List α) (probe : α → Option α)
    (arrivals : List (Option α))
    (hperm : arrivals.Perm (targets.map probe)) :
    (hasAcmeSuffix (clientHelloServerName parseHello bs) = false →
      acmeMatchMatch parseHello bs arrivals = (none, "")) ∧
    (targets = [] → acmeMatchMatch parseHello bs arrivals = (none, "")) ∧
    ((∀ t ∈ targets, probe t = none) →
      acmeMatchMatch parseHello bs arrivals = (none, "")) := by
  refine ⟨?_, ?_, ?_⟩
  · intro h
    simp [acmeMatchMatch, h]
  · intro ht
    subst ht
    have ha : arrivals = [] := by simpa using hperm
    subst ha
    simp [acmeMatchMatch, firstSome]
  · intro h
    have ha : ∀ x ∈ arrivals, x = none := by
      intro x hx
      have hm : x ∈ targets.map probe := hperm.subset hx
      obtain ⟨t, ht, rfl⟩ := List.mem_map.mp hm
      exact h t ht
    have hf := firstSome_eq_none_of_all_none arrivals ha
    simp [acmeMatchMatch, hf]

/-- Witness for C6: one registered backend whose probe yields nil gives
no match. -/
theorem acmeMatch_no_match_witness :
    acmeMatchMatch (fun _ => "") ([] : List Nat) ([none] : List (Option Nat)) =
      (none, "") :=
  (acmeMatch_no_match (fun _ => "") [] [7] (fun _ => none) [none]
    (List.Perm.refl _)).2.2 (by simp)

/-- `AddSNIMatchRoute` on a listener with a non-empty ACME target set
and ACME search enabled: one SNI route is appended, the dest joins the
target set, and no ACME pseudo-route is created. -/
theorem addSNI_nonempty {α : Type} (cfg : ListenerConfig α) (i : Nat) (d : α)
    (hstop : cfg.stopACME = false) (hne : cfg.acmeTargets ≠ []) :
    AddSNIMatchRoute cfg i d =
      ⟨cfg.routes ++ [⟨i, RouteKind.sniRoute d⟩], cfg.acmeTargets ++ [d],
        false⟩ := by
  obtain ⟨rs, ts, st⟩ := cfg
  simp only at hstop hne
  subst hstop
  simp [AddSNIMatchRoute, addRouteWithId, List.length_eq_zero, hne]

/-- Folding `AddSNIMatchRoute` calls over a listener whose ACME target
set is already non-empty appends exactly one SNI route and one target
per call. -/
theorem addAll_nonempty {α : Type} (calls : List (Nat × α))
    (cfg : ListenerConfig α) (hstop : cfg.stopACME = false)
    (hne : cfg.acmeTargets ≠ []) :
    addAll cfg calls =
      ⟨cfg.routes ++ calls.map (fun p => ⟨p.1, RouteKind.sniRoute p.2⟩),
        cfg.acmeTargets ++ calls.map Prod.snd, false⟩ := by
  induction calls generalizing cfg with
  | nil =>
    obtain ⟨rs, ts, st⟩ := cfg
    simp only at hstop
    subst hstop
    simp [addAll]
  | cons p ps ih =>
    have h1 : addAll cfg (p :: ps) =
        addAll (AddSNIMatchRoute cfg p.1 p.2) ps := rfl
    have h2 := ih (⟨cfg.routes ++ [(⟨p.1, RouteKind.sniRoute p.2⟩ :
      RouteEntry α)], cfg.acmeTargets ++ [p.2], false⟩ : ListenerConfig α)
      rfl (by simp)
    rw [h1, addSNI_nonempty cfg p.1 p.2 hstop hne, h2]
    simp

/-- The first `AddSNIMatchRoute` call on a fresh listener registers the
ACME pseudo-route and the SNI route, both under the call's id, and seeds
the ACME target set. -/
theorem addSNI_fresh {α : Type} (i : Nat) (d : α) :
    AddSNIMatchRoute (freshConfig α) i d =
      ⟨[⟨i, RouteKind.acme⟩, ⟨i, RouteKind.sniRoute d⟩], [d], false⟩ := rfl

/-- SNI routes are never counted as ACME pseudo-routes. -/
theorem countAcme_map_sni {α : Type} (calls : List (Nat × α)) :
    countAcme (calls.map fun p => (⟨p.1, RouteKind.sniRoute p.2⟩ :
      RouteEntry α)) = 0 := by
  induction calls with
  | nil => rfl
  | cons p ps ih => simpa [countAcme, isAcmeRoute] using ih

/-- Claim C7: with ACME search enabled, the first `AddSNIMatchRoute`
call on a listener registers exactly one ACME pseudo-route and later
calls register none, every call appends its dest to the shared ACME
target set, and with ACME search disabled no ACME route is created and
the target set does not grow. -/
theorem addSNIMatchRoute_acme_registration (α : Type) :
    (∀ (i : Nat) (d : α) (calls : List (Nat × α)),
      countAcme ((addAll (freshConfig α) ((i, d) :: calls)).routes) = 1) ∧
    (∀ (cfg : ListenerConfig α) (i : Nat) (d : α), cfg.stopACME = false →
      (AddSNIMatchRoute cfg i d).acmeTargets = cfg.acmeTargets ++ [d]) ∧
    (∀ (cfg : ListenerConfig α) (i : Nat) (d : α), cfg.stopACME = false →
      cfg.acmeTargets ≠ [] →
      (AddSNIMatchRoute cfg i d).routes =
        cfg.routes ++ [⟨i, RouteKind.sniRoute d⟩]) ∧
    (∀ (cfg : ListenerConfig α) (i : Nat) (d : α), cfg.stopACME = true →
      (AddSNIMatchRoute cfg i d).routes =
        cfg.routes ++ [⟨i, RouteKind.sniRoute d⟩] ∧
      (AddSNIMatchRoute cfg i d).acmeTargets = cfg.acmeTargets) := by
  refine ⟨?_, ?_, ?_, ?_⟩
  · intro i d calls
    have h1 : addAll (freshConfig α) ((i, d) :: calls) =
        addAll (AddSNIMatchRoute (freshConfig α) i d) calls := rfl
    rw [h1, addSNI_fresh, addAll_nonempty calls _ rfl (by simp)]
    simpa [countAcme, isAcmeRoute, List.filter_append] using
      countAcme_map_sni calls
  · intro cfg i d hstop
    obtain ⟨rs, ts, st⟩ := cfg
    simp only at hstop
    subst hstop
    by_cases hts : ts = []
    · subst hts
      simp [AddSNIMatchRoute, addRouteWithId]
    · simp [AddSNIMatchRoute, addRouteWithId, List.length_eq_zero, hts]
  · intro cfg i d hstop hne
    rw [addSNI_nonempty cfg i d hstop hne]
  · intro cfg i d hstop
    obtain ⟨rs, ts, st⟩ := cfg
    simp only at hstop
    subst hstop
    exact ⟨rfl, rfl⟩

/-- Witness for C7: one call on a fresh listener yields one ACME
pseudo-route and puts the dest in the target set. -/
theorem addSNIMatchRoute_acme_registration_witness :
    countAcme ((addAll (freshConfig Nat) [(5, 3)]).routes) = 1 ∧
    (AddSNIMatchRoute (freshConfig Nat) 5 3).acmeTargets = [3] :=
  ⟨(addSNIMatchRoute_acme_registration Nat).1 5 3 [],
    (addSNIMatchRoute_acme_registration Nat).2.1 (freshConfig Nat) 5 3 rfl⟩

/-- Counterexample for C9: the first `AddSNIMatchRoute` call on a fresh
listener produces two distinct routes — the auto-registered ACME
pseudo-route and the SNI route — carrying the same route id, because the
code registers both under the one `uuid.New()` result. -/
theorem routeId_unique_counterexample :
    (AddSNIMatchRoute (freshConfig Nat) 42 7).routes =
      [⟨42, RouteKind.acme⟩, ⟨42, RouteKind.sniRoute 7⟩] ∧
    (⟨42, RouteKind.acme⟩ : RouteEntry Nat) ≠ ⟨42, RouteKind.sniRoute 7⟩ ∧
    (⟨42, RouteKind.acme⟩ : RouteEntry Nat).rid =
      (⟨42, RouteKind.sniRoute 7⟩ : RouteEntry Nat).rid :=
  ⟨rfl, by decide, rfl⟩

/-- Claim C9 (amended): route ids are unique per registration call, not
per route — with ACME search enabled, the route table's id sequence
after calls `(i, d) :: calls` on a fresh listener is
`i :: i :: calls.map fst`: the first call's ACME pseudo-route shares the
id of the SNI route registered by that same call, every later call
contributes exactly one route with its own id, so routes from distinct
calls have distinct ids whenever the generated ids are distinct. -/
theorem routeId_per_call (α : Type) (i : Nat) (d : α)
    (calls : List (Nat × α)) :
    (addAll (freshConfig α) ((i, d) :: calls)).routes.map RouteEntry.rid =
      i :: i :: calls.map Prod.fst := by
  have h1 : addAll (freshConfig α) ((i, d) :: calls) =
      addAll (AddSNIMatchRoute (freshConfig α) i d) calls := rfl
  rw [h1, addSNI_fresh, addAll_nonempty calls _ rfl (by simp)]
  simp

/-- `Config.Match` lookup: the first matching route in slice order
wins. -/
theorem configMatchList_append_first {ρ : Type} (rmatch : ρ → String → Bool)
    (hostname : String) (rs1 rs2 : List (CRoute ρ)) (r : CRoute ρ)
    (h1 : ∀ r1 ∈ rs1, rmatch r1.pat hostname = false)
    (h2 : rmatch r.pat hostname = true) :
    configMatchList rmatch (rs1 ++ r :: rs2) hostname = r.backend := by
  induction rs1 with
  | nil => simp [configMatchList, h2]
  | cons x xs ih =>
    have hx : rmatch x.pat hostname = false := h1 x (by simp)
    simpa [configMatchList, hx] using
      ih (fun r1 hr1 => h1 r1 (by simp [hr1]))

/-- `Config.Match` lookup: no matching route gives the empty backend. -/
theorem configMatchList_none {ρ : Type} (rmatch : ρ → String → Bool)
    (hostname : String) (rs : List (CRoute ρ))
    (h : ∀ r1 ∈ rs, rmatch r1.pat hostname = false) :
    configMatchList rmatch rs hostname = "" := by
  induction rs with
  | nil => rfl
  | cons x xs ih =>
    have hx : rmatch x.pat hostname = false := h x (by simp)
    simpa [configMatchList, hx] using
      ih (fun r1 hr1 => h r1 (by simp [hr1]))

/-- Claim C8: in the static routing config, blank lines are skipped, a
one-field line is an error, three or more fields are an error, two-field
lines become routes in file order, and `Match` returns the backend of
the first route in file order whose pattern matches, or the empty string
when none does. -/
theorem configReadMatch_spec (ρ : Type) (compile : String → Option ρ)
    (rmatch : ρ → String → Bool) :
    (∀ (l : String) (ls : List String), fields l = [] →
      readRoutes compile (l :: ls) = readRoutes compile ls) ∧
    (∀ (l : String) (ls : List String) (f : String), fields l = [f] →
      readRoutes compile (l :: ls) =
        .error "invalid field on a line by itself") ∧
    (∀ (l : String) (ls : List String) (f1 f2 f3 : String)
      (fs : List String), fields l = f1 :: f2 :: f3 :: fs →
      readRoutes compile (l :: ls) = .error "too many fields on line") ∧
    (∀ (l : String) (ls : List String) (p b : String) (re : ρ)
      (rs : List (CRoute ρ)), fields l = [p, b] → compile p = some re →
      readRoutes compile ls = .ok rs →
      readRoutes compile (l :: ls) = .ok (⟨re, b⟩ :: rs)) ∧
    (∀ (hostname : String) (rs1 rs2 : List (CRoute ρ)) (r : CRoute ρ),
      (∀ r1 ∈ rs1, rmatch r1.pat hostname = false) →
      rmatch r.pat hostname = true →
      configMatch rmatch ⟨rs1 ++ r :: rs2⟩ hostname = r.backend) ∧
    (∀ (hostname : String) (rs : List (CRoute ρ)),
      (∀ r1 ∈ rs, rmatch r1.pat hostname = false) →
      configMatch rmatch ⟨rs⟩ hostname = "") := by
  refine ⟨?_, ?_, ?_, ?_, ?_, ?_⟩
  · intro l ls h
    simp only [readRoutes, h]
  · intro l ls f h
    simp only [readRoutes, h]
  · intro l ls f1 f2 f3 fs h
    simp only [readRoutes, h]
  · intro l ls p b re rs h hc hr
    simp only [readRoutes, h, hc, hr]
  · intro hostname rs1 rs2 r h1 h2
    exact configMatchList_append_first rmatch hostname rs1 rs2 r h1 h2
  · intro hostname rs h
    exact configMatchList_none rmatch hostname rs h

/-- Witness for C8: the line `a b` becomes the route (a, b); a lone
matching route is returned by `Match`. -/
theorem configReadMatch_spec_witness :
    readRoutes Option.some ["a b"] = Except.ok [⟨"a", "b"⟩] ∧
    configMatch (fun _ _ => true) ⟨[⟨"p", "bk"⟩]⟩ "h" = "bk" :=
  ⟨(configReadMatch_spec String Option.some (fun _ _ => true)).2.2.2.1
      "a b" [] "a" "b" "a" [] (by decide) rfl rfl,
    (configReadMatch_spec String Option.some (fun _ _ => true)).2.2.2.2.1
      "h" [] [] ⟨"p", "bk"⟩ (by simp) rfl⟩

/-- Claim C10: `Config.Read` is atomic — whenever it returns an error
(bad line, bad pattern or scanner error) the routes slice is unchanged,
and the slice is replaced exactly when the whole input parsed. -/
theorem configRead_atomic (ρ : Type) (compile : String → Option ρ)
    (lines : List String) (scanErr : Bool) (c : TLSConfig ρ) :
    ((configRead compile lines scanErr c).1.isSome = true →
      (configRead compile lines scanErr c).2 = c) ∧
    ((configRead compile lines scanErr c).1 = none →
      scanErr = false ∧ ∃ rs, readRoutes compile lines = .ok rs ∧
        (configRead compile lines scanErr c).2 = ⟨rs⟩) := by
  unfold configRead
  cases h : readRoutes compile lines with
  | error e => simp
  | ok rs => cases scanErr <;> simp

/-- Witness for C10: a one-field line is rejected and the config keeps
its previous routes. -/
theorem configRead_atomic_witness :
    (configRead Option.some ["lonely"] false
      (⟨[]⟩ : TLSConfig String)).2 = ⟨[]⟩ :=
  (configRead_atomic String Option.some ["lonely"] false ⟨[]⟩).1 (by decide)

end Tcpproxy
